import Mathlib

/-!
Verification development for the icepyx Variable Path Resolver design.

The repository material under src/ contains only documentation (the
IS2_data_read-in example notebook) and a CI workflow; the Python core
implementing the resolver (the icepyx Read and Variables classes) is not
part of src/.  Every definition below is therefore modelled from the
specification of the resolver, faithful to its words, and the claims are
settled against this model.
-/

namespace Icepyx

/-- Modelled from the spec: the error kinds of the resolver
(missing code: icepyx error classes).  NoMatchingFilesError when discovery
finds nothing, UnreadableFileError when the representative file cannot be
opened, UnknownVariableError when append or remove references a variable
name not in the product's descriptor set, MergeConflictError on a
per-granule merge key collision. -/
inductive ResolverError where
  | NoMatchingFilesError
  | UnreadableFileError
  | UnknownVariableError
  | MergeConflictError
deriving DecidableEq, Repr

/-- Modelled from the spec: a Variable Descriptor identifies one named
scientific variable by a short name, its applicable product, and the set of
hierarchical group paths under which it may appear in a source file, one
path per instrument beam (missing code: the icepyx Variables product
descriptor data).  Each path is recorded together with the beam it belongs
to. -/
structure VariableDescriptor where
  name : String
  product : String
  beamPaths : List (String × String)
deriving DecidableEq, Repr

/-- Modelled from the spec: the Wanted-Variables Set, a mapping from
variable name to the subset of its paths the user has selected, represented
as its set of (variable name, path) pairs (missing code: the icepyx
Variables.wanted dictionary). -/
abbrev Wanted := List (String × String)

/-- Modelled from the spec: look up a variable name in the product's known
descriptor set, returning its per-beam paths when present. -/
def knownPaths (descs : List VariableDescriptor) (v : String) :
    Option (List (String × String)) :=
  (descs.find? (fun d => d.name == v)).map (fun d => d.beamPaths)

/-- Modelled from the spec: a beam filter; when the beams argument is
omitted, all beams are used. -/
def keepBeam (beams : Option (List String)) (b : String) : Bool :=
  match beams with
  | none => true
  | some bs => decide (b ∈ bs)

/-- Modelled from the spec: add one (variable, path) pair with union
semantics; adding an already-present pair is a no-op. -/
def insertPair (w : Wanted) (p : String × String) : Wanted :=
  if p ∈ w then w else w ++ [p]

/-- Modelled from the spec: the (variable, path) pairs selected for one
variable by a beam filter: the paths of the requested beams. -/
def selectedPairs (beams : Option (List String)) (v : String)
    (bps : List (String × String)) : Wanted :=
  (bps.filter (fun bp => keepBeam beams bp.1)).map (fun bp => (v, bp.2))

/-- Modelled from the spec: append the selected pairs of one requested
variable to the Wanted-Variables Set; a variable name not present in the
product's known descriptor set fails with UnknownVariableError. -/
def appendOne (descs : List VariableDescriptor) (beams : Option (List String))
    (v : String) (w : Wanted) : Except ResolverError Wanted :=
  match knownPaths descs v with
  | none => Except.error ResolverError.UnknownVariableError
  | some bps => Except.ok ((selectedPairs beams v bps).foldl insertPair w)

/-- Modelled from the spec: append(beams, variables) adds the cross-product
of the requested beams (or all beams if omitted) and requested variable
names to the Wanted-Variables Set (missing code: icepyx
Variables.append). -/
def appendVars (descs : List VariableDescriptor) (beams : Option (List String)) :
    List String → Wanted → Except ResolverError Wanted
  | [], w => Except.ok w
  | v :: vs, w =>
    match appendOne descs beams v w with
    | Except.error e => Except.error e
    | Except.ok w2 => appendVars descs beams vs w2

/-- Modelled from the spec: remove the selected pairs of one named variable
from the Wanted-Variables Set; an unknown variable name fails with
UnknownVariableError. -/
def removeOne (descs : List VariableDescriptor) (beams : Option (List String))
    (v : String) (w : Wanted) : Except ResolverError Wanted :=
  match knownPaths descs v with
  | none => Except.error ResolverError.UnknownVariableError
  | some bps =>
    Except.ok (w.filter (fun p => decide (p ∉ selectedPairs beams v bps)))

/-- Modelled from the spec: remove the selected subset for a list of
requested variable names. -/
def removeVarsList (descs : List VariableDescriptor)
    (beams : Option (List String)) :
    List String → Wanted → Except ResolverError Wanted
  | [], w => Except.ok w
  | v :: vs, w =>
    match removeOne descs beams v w with
    | Except.error e => Except.error e
    | Except.ok w2 => removeVarsList descs beams vs w2

/-- Modelled from the spec: remove(all, beams, variables) removes the
specified subset, or clears everything when all is true (missing code:
icepyx Variables.remove). -/
def remove (descs : List VariableDescriptor) (all : Bool)
    (beams : Option (List String)) (vars : Option (List String))
    (w : Wanted) : Except ResolverError Wanted :=
  if all then Except.ok []
  else removeVarsList descs beams (vars.getD []) w

/-- Modelled from the spec: wanted() returns the current Wanted-Variables
Set, viewed as the mapping from variable name to its selected paths. -/
def wanted (w : Wanted) : String → List String :=
  fun v => (w.filter (fun p => p.1 == v)).map (fun p => p.2)

/-- Modelled from the spec: a (variable, path) pair is known to the
descriptor set when the variable resolves to a descriptor one of whose
per-beam paths equals the pair's path. -/
def knownPair (descs : List VariableDescriptor) (p : String × String) : Bool :=
  match knownPaths descs p.1 with
  | none => false
  | some bps => bps.any (fun bp => bp.2 == p.2)

/-- The invariant of the Wanted-Variables Set: it only ever contains
(variable, path) pairs whose path is also present in the Variable
Descriptor's known path set for that variable. -/
def WF (descs : List VariableDescriptor) (w : Wanted) : Prop :=
  ∀ p ∈ w, knownPair descs p = true

instance (descs : List VariableDescriptor) (w : Wanted) :
    Decidable (WF descs w) :=
  inferInstanceAs (Decidable (∀ p ∈ w, knownPair descs p = true))

/-- Modelled from the spec: the file-opening collaborator (missing code:
the HDF5 reader behind icepyx Variables.avail).  Opening a file either
yields the list of internal variable paths found in it, or none when the
file cannot be opened or parsed. -/
structure Filestore where
  openFile : String → Option (List String)

/-- Modelled from the spec: the representative file used for variable
discovery is the first file in the FileList unless explicitly
overridden. -/
def representativeFile (filelist : List String) (override : Option String) :
    Option String :=
  match override with
  | some f => some f
  | none => filelist.head?

/-- Modelled from the spec: available opens exactly one file (the
representative one) and returns every variable path found; it fails with
UnreadableFileError if the file cannot be opened (missing code: icepyx
Variables.avail). -/
def available (fs : Filestore) (filelist : List String)
    (override : Option String) : Except ResolverError (List String) :=
  match representativeFile filelist override with
  | none => Except.error ResolverError.NoMatchingFilesError
  | some f =>
    match fs.openFile f with
    | none => Except.error ResolverError.UnreadableFileError
    | some paths => Except.ok paths

/-- Modelled from the spec: one segment of a Filename Pattern, either a
literal piece of text or a named typed placeholder that matches exactly
its declared number of decimal digits (the datetime directive of year,
month, day, hour, minute and second is a 14-digit placeholder). -/
inductive PatSeg where
  | lit (s : String)
  | digits (name : String) (width : Nat)
deriving DecidableEq, Repr

/-- Modelled from the spec: match a list of pattern segments against the
characters of a candidate file name, consuming it left to right. -/
def matchSegs : List PatSeg → List Char → Bool
  | [], cs => cs.isEmpty
  | PatSeg.lit s :: rest, cs =>
    s.toList.isPrefixOf cs && matchSegs rest (cs.drop s.toList.length)
  | PatSeg.digits _ width :: rest, cs =>
    decide ((cs.take width).length = width)
      && (cs.take width).all Char.isDigit
      && matchSegs rest (cs.drop width)

/-- Modelled from the spec: a candidate file name matches the Filename
Pattern when the whole name is consumed by the pattern segments. -/
def matchesPattern (pat : List PatSeg) (name : String) : Bool :=
  matchSegs pat name.toList

/-- Modelled from the spec: discover(root, pattern) enumerates the files
under the root whose names match the pattern, in discovery order, and
fails with NoMatchingFilesError if the set is empty (missing code: icepyx
Read and its file list construction). -/
def discover (pat : List PatSeg) (root : List String) :
    Except ResolverError (List String) :=
  match root.filter (matchesPattern pat) with
  | [] => Except.error ResolverError.NoMatchingFilesError
  | fl => Except.ok fl

/-- Modelled from the spec: the default ICESat-2 processed-granule
pattern: the literal processed_ATL, a 2-digit product code, an
underscore, a 14-digit datetime, an underscore, a 4-digit reference
ground track, a 2-digit cycle, a 2-digit orbit segment, an underscore, a
3-digit version, an underscore, a 2-digit revision, and the .h5
extension. -/
def is2Pattern : List PatSeg :=
  [PatSeg.lit "processed_ATL", PatSeg.digits "product" 2, PatSeg.lit "_",
   PatSeg.digits "datetime" 14, PatSeg.lit "_", PatSeg.digits "rgt" 4,
   PatSeg.digits "cycle" 2, PatSeg.digits "orbitsegment" 2, PatSeg.lit "_",
   PatSeg.digits "version" 3, PatSeg.lit "_", PatSeg.digits "revision" 2,
   PatSeg.lit ".h5"]

/-- Modelled from the spec: the per-granule result of reading one input
file: its derived granule index key and its dataset (kept abstract as an
identifier). -/
structure GranuleData where
  granKey : String
  dataset : String
deriving DecidableEq, Repr

/-- Modelled from the spec: whether a list of derived granule index keys
is collision-free. -/
def keysNodup : List String → Bool
  | [] => true
  | k :: ks => !(decide (k ∈ ks)) && keysNodup ks

/-- Modelled from the spec: a failed merge surfaces the underlying
failure plus the set of per-granule partial results rather than silently
dropping data. -/
structure MergeFailure where
  err : ResolverError
  partials : List GranuleData
deriving DecidableEq, Repr

/-- Modelled from the spec: the load step merges the per-granule datasets
into one unified dataset keyed by the granule index key; when the derived
keys collide the merge fails with MergeConflictError, and the failure
carries the individual per-granule datasets (missing code: icepyx
Read.load and its merge over the external array library). -/
def loadStep (granules : List GranuleData) :
    Except MergeFailure (List GranuleData) :=
  if keysNodup (granules.map (fun g => g.granKey)) then Except.ok granules
  else
    Except.error
      { err := ResolverError.MergeConflictError, partials := granules }

/-- Modelled from the spec: the state of one Resolver instance: its
discovered FileList and the single Wanted-Variables Set it owns. -/
structure Resolver where
  filelist : List String
  wantedSet : Wanted
deriving DecidableEq, Repr

/-- Modelled from the spec: discover acting on the resolver state: it
refreshes the FileList and touches nothing else. -/
def discoverR (pat : List PatSeg) (root : List String) (r : Resolver) :
    Except ResolverError Unit × Resolver :=
  match discover pat root with
  | Except.ok fl => (Except.ok (), { r with filelist := fl })
  | Except.error e => (Except.error e, r)

/-- Modelled from the spec: available acting on the resolver state: it
reads from the representative file and leaves the state unchanged. -/
def availableR (fs : Filestore) (override : Option String) (r : Resolver) :
    Except ResolverError (List String) × Resolver :=
  (available fs r.filelist override, r)

/-- Modelled from the spec: append acting on the resolver state: it
updates the Wanted-Variables Set and touches nothing else. -/
def appendR (descs : List VariableDescriptor) (beams : Option (List String))
    (vars : List String) (r : Resolver) :
    Except ResolverError Unit × Resolver :=
  match appendVars descs beams vars r.wantedSet with
  | Except.ok w => (Except.ok (), { r with wantedSet := w })
  | Except.error e => (Except.error e, r)

/-- Modelled from the spec: remove acting on the resolver state: it
updates the Wanted-Variables Set and touches nothing else. -/
def removeR (descs : List VariableDescriptor) (all : Bool)
    (beams : Option (List String)) (vars : Option (List String))
    (r : Resolver) : Except ResolverError Unit × Resolver :=
  match remove descs all beams vars r.wantedSet with
  | Except.ok w => (Except.ok (), { r with wantedSet := w })
  | Except.error e => (Except.error e, r)

/-- Modelled from the spec: a pre-existing catalog supplied to the Read
object carries a single group path and names a single data variable (the
template has one group parameter). -/
structure Catalog where
  grpPath : String
  varname : String
deriving DecidableEq, Repr

/-- Modelled from the spec: calling the catalog's read directly reads in
the one data variable the catalog specifies (missing code: the external
cataloging library's read driven by the icepyx catalog template). -/
def catalogRead (c : Catalog) : List (String × String) :=
  [(c.varname, c.grpPath)]

/-- Modelled from the spec: reading through a supplied catalog bypasses
the Wanted-Variables Set entirely: whatever the set holds, only the
catalog's own single variable is read. -/
def readViaCatalog (c : Catalog) (_w : Wanted) : List (String × String) :=
  catalogRead c

/-- Modelled from the spec: the load step reads one data array per
(variable, path) pair of the Wanted-Variables Set, so the distinct
variable names read are those of the set. -/
def variablesReadViaLoad (w : Wanted) : List String :=
  (w.map (fun p => p.1)).dedup

/-- A concrete descriptor set with one variable reachable under two
beams, used to exercise the model on concrete inputs. -/
def sampleDescs : List VariableDescriptor :=
  [{ name := "h_li", product := "ATL06",
     beamPaths := [("gt1l", "gt1l/land_ice_segments/h_li"),
                   ("gt3r", "gt3r/land_ice_segments/h_li")] }]

/-- The Wanted-Variables Set obtained by appending h_li over all beams of
the sample descriptor set. -/
def sampleWanted : Wanted :=
  [("h_li", "gt1l/land_ice_segments/h_li"),
   ("h_li", "gt3r/land_ice_segments/h_li")]

/-- A concrete filestore on which every file opens successfully. -/
def fsGood : Filestore :=
  { openFile := fun _ => some ["gt1l/land_ice_segments/h_li"] }

/-- A concrete filestore on which no file can be opened. -/
def fsBad : Filestore :=
  { openFile := fun _ => none }

/-- A concrete filestore that opens only the file a.h5, agreeing with
fsGood on it and disagreeing everywhere else. -/
def fsAlt : Filestore :=
  { openFile := fun f =>
      if f = "a.h5" then some ["gt1l/land_ice_segments/h_li"] else none }

theorem mem_insertPair {w : Wanted} {p q : String × String} :
    q ∈ insertPair w p ↔ q ∈ w ∨ q = p := by
  unfold insertPair
  split
  · rename_i hp
    constructor
    · exact Or.inl
    · rintro (h | rfl)
      · exact h
      · exact hp
  · simp [List.mem_append]

theorem mem_foldl_insertPair (l : Wanted) (w : Wanted) (q : String × String) :
    q ∈ l.foldl insertPair w ↔ q ∈ w ∨ q ∈ l := by
  induction l generalizing w with
  | nil => simp
  | cons p l ih =>
    simp only [List.foldl_cons, ih, mem_insertPair, List.mem_cons]
    tauto

theorem nodup_insertPair {w : Wanted} (p : String × String) (h : w.Nodup) :
    (insertPair w p).Nodup := by
  unfold insertPair
  split
  · exact h
  · rename_i hp
    simp [List.nodup_append, h, hp]

theorem nodup_foldl_insertPair (l : Wanted) {w : Wanted} (h : w.Nodup) :
    (l.foldl insertPair w).Nodup := by
  induction l generalizing w with
  | nil => exact h
  | cons p l ih => exact ih (nodup_insertPair p h)

theorem foldl_insertPair_of_subset {l w : Wanted} (h : ∀ p ∈ l, p ∈ w) :
    l.foldl insertPair w = w := by
  induction l with
  | nil => rfl
  | cons p l ih =>
    have hp : insertPair w p = w := if_pos (h p (List.mem_cons_self p l))
    simp only [List.foldl_cons, hp]
    exact ih (fun q hq => h q (List.mem_cons_of_mem p hq))

theorem mem_selectedPairs {beams : Option (List String)} {v : String}
    {bps : List (String × String)} {q : String × String} :
    q ∈ selectedPairs beams v bps ↔
      ∃ bp ∈ bps, keepBeam beams bp.1 = true ∧ q = (v, bp.2) := by
  simp only [selectedPairs, List.mem_map, List.mem_filter]
  constructor
  · rintro ⟨bp, ⟨hbp, hk⟩, rfl⟩
    exact ⟨bp, hbp, hk, rfl⟩
  · rintro ⟨bp, hbp, hk, rfl⟩
    exact ⟨bp, ⟨hbp, hk⟩, rfl⟩

theorem appendVars_ok_of_known (descs : List VariableDescriptor)
    (beams : Option (List String)) :
    ∀ (vars : List String) (w : Wanted),
      (∀ v ∈ vars, (knownPaths descs v).isSome) →
      ∃ w2, appendVars descs beams vars w = Except.ok w2 := by
  intro vars
  induction vars with
  | nil => exact fun w _ => ⟨w, rfl⟩
  | cons u vs ih =>
    intro w hvalid
    obtain ⟨bps, hk⟩ := Option.isSome_iff_exists.mp
      (hvalid u (List.mem_cons_self u vs))
    obtain ⟨w2, hw2⟩ := ih ((selectedPairs beams u bps).foldl insertPair w)
      (fun v hv => hvalid v (List.mem_cons_of_mem u hv))
    exact ⟨w2, by simp [appendVars, appendOne, hk, hw2]⟩

theorem appendVars_ok_known (descs : List VariableDescriptor)
    (beams : Option (List String)) :
    ∀ (vars : List String) (w w2 : Wanted),
      appendVars descs beams vars w = Except.ok w2 →
      ∀ v ∈ vars, ∃ bps, knownPaths descs v = some bps := by
  intro vars
  induction vars with
  | nil => intro w w2 _ v hv; cases hv
  | cons u vs ih =>
    intro w w2 h v hv
    cases hk : knownPaths descs u with
    | none => simp [appendVars, appendOne, hk] at h
    | some bps =>
      simp only [appendVars, appendOne, hk] at h
      rcases List.mem_cons.mp hv with rfl | hv2
      · exact ⟨bps, hk⟩
      · exact ih _ _ h v hv2

theorem mem_appendVars (descs : List VariableDescriptor)
    (beams : Option (List String)) :
    ∀ (vars : List String) (w w2 : Wanted),
      appendVars descs beams vars w = Except.ok w2 →
      ∀ q, q ∈ w2 ↔ q ∈ w ∨ ∃ v ∈ vars, ∃ bps,
        knownPaths descs v = some bps ∧ q ∈ selectedPairs beams v bps := by
  intro vars
  induction vars with
  | nil =>
    intro w w2 h q
    cases h
    simp
  | cons u vs ih =>
    intro w w2 h q
    cases hk : knownPaths descs u with
    | none => simp [appendVars, appendOne, hk] at h
    | some bps =>
      simp only [appendVars, appendOne, hk] at h
      rw [ih _ _ h q, mem_foldl_insertPair]
      simp only [List.mem_cons]
      constructor
      · rintro ((hq | hq) | ⟨v, hv, bps2, hk2, hq⟩)
        · exact Or.inl hq
        · exact Or.inr ⟨u, Or.inl rfl, bps, hk, hq⟩
        · exact Or.inr ⟨v, Or.inr hv, bps2, hk2, hq⟩
      · rintro (hq | ⟨v, rfl | hv, bps2, hk2, hq⟩)
        · exact Or.inl (Or.inl hq)
        · rw [hk] at hk2
          cases hk2
          exact Or.inl (Or.inr hq)
        · exact Or.inr ⟨v, hv, bps2, hk2, hq⟩

theorem nodup_appendVars (descs : List VariableDescriptor)
    (beams : Option (List String)) :
    ∀ (vars : List String) (w w2 : Wanted),
      appendVars descs beams vars w = Except.ok w2 →
      w.Nodup → w2.Nodup := by
  intro vars
  induction vars with
  | nil => intro w w2 h hw; cases h; exact hw
  | cons u vs ih =>
    intro w w2 h hw
    cases hk : knownPaths descs u with
    | none => simp [appendVars, appendOne, hk] at h
    | some bps =>
      simp only [appendVars, appendOne, hk] at h
      exact ih _ _ h (nodup_foldl_insertPair _ hw)

theorem appendVars_fixed (descs : List VariableDescriptor)
    (beams : Option (List String)) :
    ∀ (vars : List String) (w : Wanted),
      (∀ v ∈ vars, ∃ bps, knownPaths descs v = some bps ∧
        ∀ q ∈ selectedPairs beams v bps, q ∈ w) →
      appendVars descs beams vars w = Except.ok w := by
  intro vars
  induction vars with
  | nil => intro w _; rfl
  | cons u vs ih =>
    intro w hfix
    obtain ⟨bps, hk, hsub⟩ := hfix u (List.mem_cons_self u vs)
    have hfold : (selectedPairs beams u bps).foldl insertPair w = w :=
      foldl_insertPair_of_subset hsub
    simp only [appendVars, appendOne, hk, hfold]
    exact ih w (fun v hv => hfix v (List.mem_cons_of_mem u hv))

theorem appendVars_unknown (descs : List VariableDescriptor)
    (beams : Option (List String)) :
    ∀ (vars : List String) (w : Wanted) (v : String), v ∈ vars →
      knownPaths descs v = none →
      appendVars descs beams vars w =
        Except.error ResolverError.UnknownVariableError := by
  intro vars
  induction vars with
  | nil => intro w v hv; cases hv
  | cons u vs ih =>
    intro w v hv hnone
    cases hk : knownPaths descs u with
    | none => simp [appendVars, appendOne, hk]
    | some bps =>
      rcases List.mem_cons.mp hv with rfl | hv2
      · rw [hk] at hnone; cases hnone
      · simp only [appendVars, appendOne, hk]
        exact ih _ v hv2 hnone

theorem removeVarsList_subset (descs : List VariableDescriptor)
    (beams : Option (List String)) :
    ∀ (vars : List String) (w w2 : Wanted),
      removeVarsList descs beams vars w = Except.ok w2 → w2 ⊆ w := by
  intro vars
  induction vars with
  | nil => intro w w2 h; cases h; exact fun q hq => hq
  | cons u vs ih =>
    intro w w2 h
    cases hk : knownPaths descs u with
    | none => simp [removeVarsList, removeOne, hk] at h
    | some bps =>
      simp only [removeVarsList, removeOne, hk] at h
      exact fun q hq => List.mem_of_mem_filter (ih _ _ h hq)

theorem removeVarsList_unknown (descs : List VariableDescriptor)
    (beams : Option (List String)) :
    ∀ (vars : List String) (w : Wanted) (v : String), v ∈ vars →
      knownPaths descs v = none →
      removeVarsList descs beams vars w =
        Except.error ResolverError.UnknownVariableError := by
  intro vars
  induction vars with
  | nil => intro w v hv; cases hv
  | cons u vs ih =>
    intro w v hv hnone
    cases hk : knownPaths descs u with
    | none => simp [removeVarsList, removeOne, hk]
    | some bps =>
      rcases List.mem_cons.mp hv with rfl | hv2
      · rw [hk] at hnone; cases hnone
      · simp only [removeVarsList, removeOne, hk]
        exact ih _ v hv2 hnone

/-- C1: for every pair of input files whose derived granule index keys
collide, the load step raises MergeConflictError while still making the
individual per-file (per-granule) datasets available to the caller: the
surfaced failure carries exactly the two per-file datasets. -/
theorem load_conflict_surfaces_partials (g1 g2 : GranuleData)
    (h : g1.granKey = g2.granKey) :
    loadStep [g1, g2] =
      Except.error
        { err := ResolverError.MergeConflictError, partials := [g1, g2] } := by
  simp [loadStep, keysNodup, h]

/-- Witness for C1 at two concrete granules sharing the key k. -/
theorem load_conflict_surfaces_partials_witness :
    loadStep [{ granKey := "k", dataset := "d1" },
              { granKey := "k", dataset := "d2" }] =
      Except.error
        { err := ResolverError.MergeConflictError,
          partials := [{ granKey := "k", dataset := "d1" },
                       { granKey := "k", dataset := "d2" }] } :=
  load_conflict_surfaces_partials
    { granKey := "k", dataset := "d1" }
    { granKey := "k", dataset := "d2" } rfl

/-- C3: the set of available variable paths is computed by opening exactly
one file, the first of the FileList unless an explicit override is given:
the result of available depends only on the contents of the representative
file, the representative is the override when given and the first file
otherwise, and available fails with UnreadableFileError when that file
cannot be opened. -/
theorem available_opens_one_file (fl : List String) :
    (∀ (fs fs2 : Filestore) (override : Option String) (f : String),
        representativeFile fl override = some f →
        fs.openFile f = fs2.openFile f →
        available fs fl override = available fs2 fl override) ∧
    (∀ f : String, representativeFile fl (some f) = some f) ∧
    (representativeFile fl none = fl.head?) ∧
    (∀ (fs : Filestore) (override : Option String) (f : String),
        representativeFile fl override = some f →
        fs.openFile f = none →
        available fs fl override =
          Except.error ResolverError.UnreadableFileError) := by
  refine ⟨?_, fun _ => rfl, rfl, ?_⟩
  · intro fs fs2 override f hrep heq
    simp only [available, hrep]
    rw [heq]
  · intro fs override f hrep hnone
    simp only [available, hrep, hnone]

/-- Witness for C3: two filestores agreeing on the first file a.h5 give
the same availability result, and a filestore that cannot open the first
file fails with UnreadableFileError. -/
theorem available_opens_one_file_witness :
    available fsGood ["a.h5", "b.h5"] none
        = available fsAlt ["a.h5", "b.h5"] none ∧
    available fsBad ["a.h5", "b.h5"] none
        = Except.error ResolverError.UnreadableFileError :=
  ⟨(available_opens_one_file ["a.h5", "b.h5"]).1 fsGood fsAlt none "a.h5"
      rfl (by decide),
   (available_opens_one_file ["a.h5", "b.h5"]).2.2.2 fsBad none "a.h5"
      rfl rfl⟩

/-- C4: discover over a root that is empty or contains no file matching
the pattern fails with NoMatchingFilesError; over a root whose matching
files number exactly one it returns a FileList of length 1. -/
theorem discover_empty_and_singleton (pat : List PatSeg) (root : List String) :
    ((∀ f ∈ root, matchesPattern pat f = false) →
      discover pat root = Except.error ResolverError.NoMatchingFilesError) ∧
    ((root.filter (matchesPattern pat)).length = 1 →
      ∃ fl, discover pat root = Except.ok fl ∧ fl.length = 1) := by
  constructor
  · intro hnone
    have hfil : root.filter (matchesPattern pat) = [] := by
      rw [List.filter_eq_nil_iff]
      intro f hf
      simp [hnone f hf]
    simp [discover, hfil]
  · intro hone
    cases hfil : root.filter (matchesPattern pat) with
    | nil => rw [hfil] at hone; cases hone
    | cons f rest =>
      refine ⟨f :: rest, ?_, ?_⟩
      · simp [discover, hfil]
      · rw [← hfil]; exact hone

/-- Witness for C4: a one-segment literal pattern finds nothing in a root
with one non-matching file, and returns a length-1 FileList over a root
whose only match is a.h5. -/
theorem discover_empty_and_singleton_witness :
    discover [PatSeg.lit "a.h5"] ["b.txt"]
        = Except.error ResolverError.NoMatchingFilesError ∧
    ∃ fl, discover [PatSeg.lit "a.h5"] ["a.h5", "b.txt"] = Except.ok fl ∧
      fl.length = 1 :=
  ⟨(discover_empty_and_singleton [PatSeg.lit "a.h5"] ["b.txt"]).1 (by decide),
   (discover_empty_and_singleton [PatSeg.lit "a.h5"] ["a.h5", "b.txt"]).2
      (by decide)⟩

/-- C6: after remove with all set to true, wanted() returns an empty
mapping, regardless of the prior contents of the Wanted-Variables Set. -/
theorem remove_all_clears (descs : List VariableDescriptor)
    (beams : Option (List String)) (vars : Option (List String))
    (w : Wanted) :
    remove descs true beams vars w = Except.ok [] ∧
    ∀ v, wanted [] v = [] :=
  ⟨rfl, fun _ => rfl⟩

/-- C9: discover and available leave the Wanted-Variables Set unchanged;
only append and remove mutate it, and they in turn leave the FileList
unchanged. -/
theorem only_append_remove_mutate (pat : List PatSeg) (root : List String)
    (fs : Filestore) (override : Option String)
    (descs : List VariableDescriptor) (beams : Option (List String))
    (vars : List String) (all : Bool) (varsOpt : Option (List String))
    (r : Resolver) :
    ((discoverR pat root r).2.wantedSet = r.wantedSet) ∧
    ((availableR fs override r).2 = r) ∧
    ((appendR descs beams vars r).2.filelist = r.filelist) ∧
    ((removeR descs all beams varsOpt r).2.filelist = r.filelist) := by
  refine ⟨?_, rfl, ?_, ?_⟩
  · unfold discoverR
    cases discover pat root <;> rfl
  · unfold appendR
    cases appendVars descs beams vars r.wantedSet <;> rfl
  · unfold removeR
    cases remove descs all beams varsOpt r.wantedSet <;> rfl

/-- C10: reading through a supplied catalog directly reads in exactly one
data variable, regardless of how many (variable, path) pairs the
Wanted-Variables Set holds; reading several variables is possible only
through the wanted-variables load path. -/
theorem catalog_read_single_variable :
    (∀ (c : Catalog) (w : Wanted), (readViaCatalog c w).length = 1) ∧
    (∃ w : Wanted, 1 < (variablesReadViaLoad w).length) :=
  ⟨fun _ _ => rfl, ⟨[("h_li", "p1"), ("latitude", "p2")], by decide⟩⟩

/-- C2: for valid (beams, variables) inputs, append followed by wanted()
yields exactly the cross-product of the requested beams and the requested
variable names as resolved by the product's descriptor set, with no
duplicate (variable, path) pairs; when the beams argument is omitted, all
beams of each descriptor are used. -/
theorem append_wanted_cross_product (descs : List VariableDescriptor)
    (vars : List String)
    (hvalid : ∀ v ∈ vars, (knownPaths descs v).isSome) :
    (∀ beams : Option (List String),
        ∃ w2, appendVars descs beams vars [] = Except.ok w2 ∧ w2.Nodup) ∧
    (∀ (bs : List String) (w2 : Wanted),
        appendVars descs (some bs) vars [] = Except.ok w2 →
        ∀ v path, (v, path) ∈ w2 ↔
          (v ∈ vars ∧ ∃ bps, knownPaths descs v = some bps ∧
            ∃ b ∈ bs, (b, path) ∈ bps)) ∧
    (∀ w2 : Wanted,
        appendVars descs none vars [] = Except.ok w2 →
        ∀ v path, (v, path) ∈ w2 ↔
          (v ∈ vars ∧ ∃ bps, knownPaths descs v = some bps ∧
            ∃ b, (b, path) ∈ bps)) := by
  refine ⟨?_, ?_, ?_⟩
  · intro beams
    obtain ⟨w2, h⟩ := appendVars_ok_of_known descs beams vars [] hvalid
    exact ⟨w2, h, nodup_appendVars descs beams vars [] w2 h List.nodup_nil⟩
  · intro bs w2 h v path
    rw [mem_appendVars descs (some bs) vars [] w2 h (v, path)]
    simp only [List.not_mem_nil, false_or]
    constructor
    · rintro ⟨v2, hv2, bps, hk, hsel⟩
      rcases mem_selectedPairs.mp hsel with ⟨bp, hbp, hkeep, heq⟩
      injection heq with h1 h2
      subst h1
      subst h2
      refine ⟨hv2, bps, hk, bp.1, ?_, ?_⟩
      · exact of_decide_eq_true hkeep
      · simpa using hbp
    · rintro ⟨hv, bps, hk, b, hb, hbp⟩
      refine ⟨v, hv, bps, hk, mem_selectedPairs.mpr ⟨(b, path), hbp, ?_, rfl⟩⟩
      simp [keepBeam, hb]
  · intro w2 h v path
    rw [mem_appendVars descs none vars [] w2 h (v, path)]
    simp only [List.not_mem_nil, false_or]
    constructor
    · rintro ⟨v2, hv2, bps, hk, hsel⟩
      rcases mem_selectedPairs.mp hsel with ⟨bp, hbp, _, heq⟩
      injection heq with h1 h2
      subst h1
      subst h2
      exact ⟨hv2, bps, hk, bp.1, by simpa using hbp⟩
    · rintro ⟨hv, bps, hk, b, hbp⟩
      exact ⟨v, hv, bps, hk,
        mem_selectedPairs.mpr ⟨(b, path), hbp, rfl, rfl⟩⟩

/-- Witness for C2 at the sample descriptor set: appending h_li for the
beams gt1l and gt3r succeeds and produces a duplicate-free set. -/
theorem append_wanted_cross_product_witness :
    ∃ w2, appendVars sampleDescs (some ["gt1l", "gt3r"]) ["h_li"] []
        = Except.ok w2 ∧ w2.Nodup :=
  (append_wanted_cross_product sampleDescs ["h_li"] (by decide)).1
    (some ["gt1l", "gt3r"])

/-- C5: append is idempotent: if one call to append takes the
Wanted-Variables Set from w to w2, a second call with identical arguments
leaves w2 exactly as it is. -/
theorem append_idempotent (descs : List VariableDescriptor)
    (beams : Option (List String)) (vars : List String) (w w2 : Wanted)
    (h : appendVars descs beams vars w = Except.ok w2) :
    appendVars descs beams vars w2 = Except.ok w2 := by
  apply appendVars_fixed
  intro v hv
  obtain ⟨bps, hk⟩ := appendVars_ok_known descs beams vars w w2 h v hv
  refine ⟨bps, hk, ?_⟩
  intro q hq
  exact (mem_appendVars descs beams vars w w2 h q).mpr
    (Or.inr ⟨v, hv, bps, hk, hq⟩)

/-- Witness for C5: re-appending h_li over all beams to the sample wanted
set it already produced is a no-op. -/
theorem append_idempotent_witness :
    appendVars sampleDescs none ["h_li"] sampleWanted
      = Except.ok sampleWanted :=
  append_idempotent sampleDescs none ["h_li"] [] sampleWanted rfl

/-- C7 counterexample: on the root holding the two files of the example,
discover with the stated pattern raises NoMatchingFilesError instead of
returning the first file: the example file name carries only 6 digits
between the datetime and the version where the pattern's rgt, cycle and
orbit segment widths demand 4 + 2 + 2 = 8. -/
theorem discover_example_pattern_fails :
    discover is2Pattern
        ["processed_ATL06_20190222000000_000101_003_01.h5", "other.txt"]
      = Except.error ResolverError.NoMatchingFilesError ∧
    discover is2Pattern
        ["processed_ATL06_20190222000000_000101_003_01.h5", "other.txt"]
      ≠ Except.ok ["processed_ATL06_20190222000000_000101_003_01.h5"] := by
  refine ⟨rfl, ?_⟩
  intro hc
  exact Except.noConfusion
    ((rfl : (Except.error ResolverError.NoMatchingFilesError :
        Except ResolverError (List String)) = discover is2Pattern
          ["processed_ATL06_20190222000000_000101_003_01.h5",
           "other.txt"]).trans hc)

/-- C7 amended: with a matching file name whose rgt, cycle and orbit
segment section has the full 8 digits the pattern demands, discover over a
root also holding other.txt returns a FileList containing only that
file. -/
theorem discover_example_pattern_amended :
    discover is2Pattern
        ["processed_ATL06_20190222000000_00010101_003_01.h5", "other.txt"]
      = Except.ok ["processed_ATL06_20190222000000_00010101_003_01.h5"] :=
  rfl

/-- C8: the Wanted-Variables Set only ever contains (variable, path) pairs
whose path is in the descriptor's known path set for that variable: the
invariant is preserved by append and remove, and append or remove naming a
variable outside the product's descriptor set fails with
UnknownVariableError. -/
theorem wanted_invariant (descs : List VariableDescriptor) :
    (∀ (beams : Option (List String)) (vars : List String) (w w2 : Wanted),
        WF descs w → appendVars descs beams vars w = Except.ok w2 →
        WF descs w2) ∧
    (∀ (all : Bool) (beams : Option (List String))
        (vars : Option (List String)) (w w2 : Wanted),
        WF descs w → remove descs all beams vars w = Except.ok w2 →
        WF descs w2) ∧
    (∀ (beams : Option (List String)) (vars : List String) (w : Wanted)
        (v : String), v ∈ vars → knownPaths descs v = none →
        appendVars descs beams vars w =
          Except.error ResolverError.UnknownVariableError) ∧
    (∀ (beams : Option (List String)) (vars : List String) (w : Wanted)
        (v : String), v ∈ vars → knownPaths descs v = none →
        removeVarsList descs beams vars w =
          Except.error ResolverError.UnknownVariableError) := by
  refine ⟨?_, ?_, ?_, ?_⟩
  · intro beams vars w w2 hwf h q hq
    rcases (mem_appendVars descs beams vars w w2 h q).mp hq with
      hold | ⟨v, _, bps, hk, hsel⟩
    · exact hwf q hold
    · rcases mem_selectedPairs.mp hsel with ⟨bp, hbp, _, rfl⟩
      simp only [knownPair, hk]
      simp only [List.any_eq_true]
      exact ⟨bp, hbp, by simp⟩
  · intro all beams vars w w2 hwf h q hq
    cases all with
    | true =>
      simp only [remove, if_pos] at h
      cases h
      cases hq
    | false =>
      simp only [remove, Bool.false_eq_true, if_neg] at h
      exact hwf q (removeVarsList_subset descs beams _ w w2 h hq)
  · intro beams vars w v hv hnone
    exact appendVars_unknown descs beams vars w v hv hnone
  · intro beams vars w v hv hnone
    exact removeVarsList_unknown descs beams vars w v hv hnone

/-- Witness for C8: the sample wanted set produced by append satisfies the
invariant, and appending an unknown variable name fails with
UnknownVariableError. -/
theorem wanted_invariant_witness :
    WF sampleDescs sampleWanted ∧
    appendVars sampleDescs none ["bogus"] [] =
      Except.error ResolverError.UnknownVariableError :=
  ⟨(wanted_invariant sampleDescs).1 none ["h_li"] [] sampleWanted
      (by decide) rfl,
   (wanted_invariant sampleDescs).2.2.1 none ["bogus"] [] "bogus"
      (by decide) rfl⟩

end Icepyx
